import Mathlib

/-!
Shallow embedding of the persistence layer of the budget tracker
(`budget_database.py`): the data model (income, expenses, investment
accounts, savings goals, budget plans, real assets), the CRUD and
aggregation operations the specification talks about, and theorems
settling the specification's claims against this embedding.

Conventions: SQLite REAL amounts are modelled as `ℚ`; tables are lists of
row structures carrying the same columns; Python dicts are association
lists with replace-on-assign semantics; the database handle's mutable
state is threaded explicitly.
-/

namespace Budget

/-! ### String helpers mirroring the Python builtins used by the code -/

/-- Python's `str.split(sep)` on a character list: splits on every
occurrence of `sep`, keeping empty pieces. -/
def pySplit (sep : Char) : List Char → List (List Char)
  | [] => [[]]
  | c :: cs =>
    let rest := pySplit sep cs
    if c = sep then [] :: rest
    else
      match rest with
      | [] => [[c]]
      | r :: rs => (c :: r) :: rs

/-- Decimal value of a digit string, as Python's `int` computes it on a
string of digits. -/
def digitsToNat (l : List Char) : Nat :=
  l.foldl (fun n c => n * 10 + (c.toNat - Char.toNat '0')) 0

/-- Python `int(s)` for the non-negative digit strings this code feeds it. -/
def pyIntStr (s : String) : Nat :=
  digitsToNat s.toList

/-- Model of `date.split('-')[1]`: the month component of an ISO date string. -/
def dateMonth (date : String) : String :=
  String.mk ((pySplit '-' date.toList).getD 1 [])

/-- Model of `int(date.split('-')[0])`: the year component of an ISO date string. -/
def dateYear (date : String) : Int :=
  Int.ofNat (digitsToNat ((pySplit '-' date.toList).headD []))

/-- Python's `str.zfill(2)` for unsigned strings. -/
def zfill2 (s : String) : String :=
  if s.length < 2 then String.mk (List.replicate (2 - s.length) '0' ++ s.toList) else s

/-! ### Association lists: Python dict reads and writes -/

/-- Python `d[k]` / `k in d` lookup on an insertion-ordered dict. -/
def dictFind {κ α : Type} [DecidableEq κ] : List (κ × α) → κ → Option α
  | [], _ => none
  | (k', v) :: l, k => if k = k' then some v else dictFind l k

/-- Python `d[k] = v`: replace in place when the key exists, else append. -/
def dictSet {κ α : Type} [DecidableEq κ] : List (κ × α) → κ → α → List (κ × α)
  | [], k, v => [(k, v)]
  | (k', v') :: l, k, v => if k = k' then (k, v) :: l else (k', v') :: dictSet l k v

/-- The `if k not in d: d[k] = 0` followed by `d[k] += q` pattern. -/
def dictAdd {κ : Type} [DecidableEq κ] (l : List (κ × ℚ)) (k : κ) (q : ℚ) : List (κ × ℚ) :=
  match dictFind l k with
  | some v => dictSet l k (v + q)
  | none => dictSet l k q

/-! ### Row structures: one per table of `create_tables` -/

/-- A row of the `income` table. -/
structure IncomeRow where
  id : Nat
  date : String
  source : String
  amount : ℚ
  person : String
  account : String
  description : String
  is_transfer : Bool
  from_account : String
  month : String
  year : Int
  deriving DecidableEq, Repr

/-- A row of the `expenses` table. -/
structure ExpenseRow where
  id : Nat
  date : String
  category : String
  subcategory : String
  amount : ℚ
  person : String
  description : String
  account : String
  cleared : Bool
  month : String
  year : Int
  deriving DecidableEq, Repr

/-- A row of the `investment_accounts` table. -/
structure InvestmentAccount where
  account_name : String
  account_type : String
  liquidity : String
  current_balance : ℚ
  previous_balance : ℚ
  last_updated : String
  person : String
  institution : String
  notes : String
  deriving DecidableEq, Repr

/-- A row of the `savings_goals` table. -/
structure SavingsGoal where
  id : Nat
  name : String
  target_amount : ℚ
  current_amount : ℚ
  monthly_contribution : ℚ
  target_date : String
  priority : Int
  is_active : Bool
  category : String
  notes : String
  deriving DecidableEq, Repr

/-- A row of the `budget_plans` table. -/
structure BudgetPlan where
  month : String
  year : Int
  category : String
  subcategory : String
  planned_amount : ℚ
  deriving DecidableEq, Repr

/-- A row of the `real_assets` table. -/
structure RealAsset where
  asset_name : String
  asset_type : String
  current_value : ℚ
  purchase_price : ℚ
  purchase_date : String
  last_updated : String
  notes : String
  deriving DecidableEq, Repr

/-- The database state: the tables the verified operations touch, plus the
autoincrement counters for the two tables whose rowids the code returns. -/
structure DB where
  income : List IncomeRow
  expenses : List ExpenseRow
  investment_accounts : List InvestmentAccount
  savings_goals : List SavingsGoal
  budget_plans : List BudgetPlan
  real_assets : List RealAsset
  income_next_id : Nat
  expenses_next_id : Nat
  deriving DecidableEq, Repr

/-- An empty database (no seeded default data). -/
def DB.empty : DB :=
  ⟨[], [], [], [], [], [], 1, 1⟩

/-! ### Income and expense CRUD -/

/-- Model of `add_income`: derives month/year from the date and inserts; returns the
new database and the `lastrowid`. -/
def add_income (db : DB) (date source : String) (amount : ℚ) (person account : String)
    (description : String) (is_transfer : Bool) (from_account : String) : DB × Nat :=
  let month := dateMonth date
  let year := dateYear date
  let row : IncomeRow :=
    ⟨db.income_next_id, date, source, amount, person, account, description,
      is_transfer, from_account, month, year⟩
  ({ db with income := db.income ++ [row], income_next_id := db.income_next_id + 1 },
    db.income_next_id)

/-- The fields of the dict passed to `update_income`. -/
structure IncomeData where
  date : String
  source : String
  amount : ℚ
  person : String
  account : String
  description : String
  is_transfer : Bool
  from_account : String
  deriving DecidableEq, Repr

/-- Model of `update_income`: full-record replace by id, re-deriving month/year from
the (possibly changed) date. -/
def update_income (db : DB) (income_id : Nat) (data : IncomeData) : DB :=
  let month := dateMonth data.date
  let year := dateYear data.date
  { db with
    income := db.income.map fun r =>
      if r.id = income_id then
        ⟨r.id, data.date, data.source, data.amount, data.person, data.account,
          data.description, data.is_transfer, data.from_account, month, year⟩
      else r }

/-- Model of `add_expense`: derives month/year from the date and inserts; returns the
new database and the `lastrowid`. -/
def add_expense (db : DB) (date category subcategory : String) (amount : ℚ)
    (person description account : String) (cleared : Bool) : DB × Nat :=
  let month := dateMonth date
  let year := dateYear date
  let row : ExpenseRow :=
    ⟨db.expenses_next_id, date, category, subcategory, amount, person, description,
      account, cleared, month, year⟩
  ({ db with expenses := db.expenses ++ [row], expenses_next_id := db.expenses_next_id + 1 },
    db.expenses_next_id)

/-- The fields of the dict passed to `update_expense`. -/
structure ExpenseData where
  date : String
  category : String
  subcategory : String
  amount : ℚ
  person : String
  description : String
  account : String
  cleared : Bool
  deriving DecidableEq, Repr

/-- Model of `update_expense`: full-record replace by id, re-deriving month/year from
the (possibly changed) date. -/
def update_expense (db : DB) (expense_id : Nat) (data : ExpenseData) : DB :=
  let month := dateMonth data.date
  let year := dateYear data.date
  { db with
    expenses := db.expenses.map fun r =>
      if r.id = expense_id then
        ⟨r.id, data.date, data.category, data.subcategory, data.amount, data.person,
          data.description, data.account, data.cleared, month, year⟩
      else r }

/-! ### Budget plans -/

/-- Model of `update_budget_plan`: `INSERT OR REPLACE` keyed on the table's
`UNIQUE(month, year, category, subcategory)` — delete any conflicting row,
then insert the new one. -/
def update_budget_plan (db : DB) (month : String) (year : Int)
    (category subcategory : String) (amount : ℚ) : DB :=
  let kept := db.budget_plans.filter fun r =>
    !(r.month == month && r.year == year &&
      r.category == category && r.subcategory == subcategory)
  { db with budget_plans := kept ++ [⟨month, year, category, subcategory, amount⟩] }

/-- The `WHERE month = ? AND year = ?` selection on `budget_plans`. -/
def planRows (db : DB) (month : String) (year : Int) : List BudgetPlan :=
  db.budget_plans.filter (fun r => r.month == month && r.year == year)

/-- The previous-(month, year) computation at the top of
`copy_budget_from_previous_month`. -/
def prevPeriod (target_month : String) (target_year : Int) : String × Int :=
  if pyIntStr target_month = 1 then ("12", target_year - 1)
  else (zfill2 (Nat.repr (pyIntStr target_month - 1)), target_year)

/-- Model of `copy_budget_from_previous_month`: fetch the previous period's plan rows
(materialized before any write) and upsert each into the target period. -/
def copy_budget_from_previous_month (db : DB) (target_month : String)
    (target_year : Int) : DB :=
  let prev := prevPeriod target_month target_year
  (planRows db prev.1 prev.2).foldl
    (fun d r => update_budget_plan d target_month target_year
      r.category r.subcategory r.planned_amount) db

/-! ### Expense aggregation (`GROUP BY category, subcategory`) -/

/-- The `WHERE month = ? AND year = ?` selection on `expenses`. -/
def periodExpenses (db : DB) (month : String) (year : Int) : List ExpenseRow :=
  db.expenses.filter (fun r => r.month == month && r.year == year)

/-- The `WHERE month = ? AND year = ?` selection on `income`. -/
def periodIncome (db : DB) (month : String) (year : Int) : List IncomeRow :=
  db.income.filter (fun r => r.month == month && r.year == year)

/-- The distinct (category, subcategory) keys of a set of expense rows. -/
def expenseKeys (rows : List ExpenseRow) : List (String × String) :=
  (rows.map fun r => (r.category, r.subcategory)).dedup

/-- Model of `SELECT category, subcategory, SUM(amount) ... GROUP BY category,
subcategory`: one row per distinct key with the summed amount. -/
def groupedExpenseTotals (rows : List ExpenseRow) : List ((String × String) × ℚ) :=
  (expenseKeys rows).map fun k =>
    (k, ((rows.filter fun r => (r.category, r.subcategory) == k).map (·.amount)).sum)

/-! ### Nested dicts (`d[cat][subcat]`) -/

/-- Model of `d[cat][subcat]` read on a dict of dicts. -/
def dict2Get {α : Type} (l : List (String × List (String × α))) (cat sub : String) :
    Option α :=
  match dictFind l cat with
  | none => none
  | some inner => dictFind inner sub

/-- Model of `d[cat][subcat] = v` write on a dict of dicts (creating `d[cat]` when
missing, as the code's preceding `if cat not in d` guard does). -/
def dict2Set {α : Type} (l : List (String × List (String × α))) (cat sub : String)
    (v : α) : List (String × List (String × α)) :=
  match dictFind l cat with
  | none => dictSet l cat [(sub, v)]
  | some inner => dictSet l cat (dictSet inner sub v)

/-! ### Budget vs actual -/

/-- One `comparison[cat][subcat]` record of `get_budget_vs_actual`. -/
structure BVAEntry where
  planned : ℚ
  actual : ℚ
  variance : ℚ
  percentage : ℚ
  deriving DecidableEq, Repr

/-- The nested comparison dict built by `get_budget_vs_actual`. -/
abbrev Comparison := List (String × List (String × BVAEntry))

/-- First loop of `get_budget_vs_actual`: a planned row initializes its
entry with actual = variance = percentage = 0. -/
def bvaPlanStep (comp : Comparison) (r : BudgetPlan) : Comparison :=
  let comp :=
    match dictFind comp r.category with
    | none => dictSet comp r.category []
    | some _ => comp
  dict2Set comp r.category r.subcategory ⟨r.planned_amount, 0, 0, 0⟩

/-- Second loop of `get_budget_vs_actual`: an actual-sum row either creates
a plan-less entry (planned 0, variance −actual) or fills in actual,
variance, and — only when planned > 0 — percentage. -/
def bvaActualStep (comp : Comparison) (k : String × String) (actual : ℚ) : Comparison :=
  let comp :=
    match dictFind comp k.1 with
    | none => dictSet comp k.1 []
    | some _ => comp
  match dict2Get comp k.1 k.2 with
  | none => dict2Set comp k.1 k.2 ⟨0, actual, -actual, 0⟩
  | some e =>
      dict2Set comp k.1 k.2
        ⟨e.planned, actual, e.planned - actual,
          if 0 < e.planned then actual / e.planned * 100 else e.percentage⟩

/-- Model of `get_budget_vs_actual`: planned rows first, then the grouped actual
sums merged in. -/
def get_budget_vs_actual (db : DB) (month : String) (year : Int) : Comparison :=
  let comp := (planRows db month year).foldl bvaPlanStep ([] : Comparison)
  (groupedExpenseTotals (periodExpenses db month year)).foldl
    (fun c ka => bvaActualStep c ka.1 ka.2) comp

/-! ### Monthly data -/

/-- Insert into a list kept in descending `key` order (the `ORDER BY date
DESC` of the monthly queries). -/
def insertDesc {α : Type} (key : α → String) (x : α) : List α → List α
  | [] => [x]
  | y :: ys => if key x ≤ key y then y :: insertDesc key x ys else x :: y :: ys

/-- Insertion sort, descending by `key`. -/
def sortDesc {α : Type} (key : α → String) : List α → List α
  | [] => []
  | x :: xs => insertDesc key x (sortDesc key xs)

/-- The `summary` block of `get_monthly_data`. -/
structure MonthlySummaryData where
  total_income : ℚ
  total_expenses : ℚ
  net_balance : ℚ
  transfer_in : ℚ
  cleared_expenses : ℚ
  pending_expenses : ℚ
  deriving DecidableEq, Repr

/-- The dict returned by `get_monthly_data`. -/
structure MonthlyData where
  income : List IncomeRow
  expenses : List ExpenseRow
  summary : MonthlySummaryData
  category_totals : List (String × ℚ)
  subcategory_totals : List (String × List (String × ℚ))
  deriving DecidableEq, Repr

/-- Model of `get_monthly_data`: raw rows (newest first), category and subcategory
totals from the grouped query, and the summary block. -/
def get_monthly_data (db : DB) (month : String) (year : Int) : MonthlyData :=
  let incomeRows := sortDesc (·.date) (periodIncome db month year)
  let expenseRows := sortDesc (·.date) (periodExpenses db month year)
  let grouped := groupedExpenseTotals (periodExpenses db month year)
  let catTotals := grouped.foldl (fun acc kv => dictAdd acc kv.1.1 kv.2) []
  let subTotals := grouped.foldl
    (fun acc kv =>
      let acc :=
        match dictFind acc kv.1.1 with
        | none => dictSet acc kv.1.1 []
        | some _ => acc
      dict2Set acc kv.1.1 kv.1.2 kv.2) []
  let total_income := ((incomeRows.filter fun r => !r.is_transfer).map (·.amount)).sum
  let total_expenses := (expenseRows.map (·.amount)).sum
  { income := incomeRows
    expenses := expenseRows
    summary :=
      { total_income := total_income
        total_expenses := total_expenses
        net_balance := total_income - total_expenses
        transfer_in := ((incomeRows.filter (·.is_transfer)).map (·.amount)).sum
        cleared_expenses := ((expenseRows.filter (·.cleared)).map (·.amount)).sum
        pending_expenses := ((expenseRows.filter fun r => !r.cleared).map (·.amount)).sum }
    category_totals := catTotals
    subcategory_totals := subTotals }

/-! ### Net worth -/

/-- The dict returned by `get_net_worth_summary`. -/
structure NetWorthSummary where
  liquid_assets : ℚ
  semi_liquid_assets : ℚ
  non_liquid_assets : ℚ
  real_assets : ℚ
  total_assets : ℚ
  by_account_type : List (String × ℚ)
  by_person : List (String × ℚ)
  month_over_month_change : ℚ
  deriving DecidableEq, Repr

/-- Body of the investment-account loop of `get_net_worth_summary`. The
sequential mutations are independent, so they are written as one record
update. -/
def nwStep (s : NetWorthSummary) (r : InvestmentAccount) : NetWorthSummary :=
  { s with
    liquid_assets :=
      if r.liquidity = "Liquid" then s.liquid_assets + r.current_balance
      else s.liquid_assets
    semi_liquid_assets :=
      if r.liquidity ≠ "Liquid" ∧ r.liquidity = "Semi-Liquid" then
        s.semi_liquid_assets + r.current_balance
      else s.semi_liquid_assets
    non_liquid_assets :=
      if r.liquidity ≠ "Liquid" ∧ r.liquidity ≠ "Semi-Liquid" then
        s.non_liquid_assets + r.current_balance
      else s.non_liquid_assets
    by_account_type := dictAdd s.by_account_type r.account_type r.current_balance
    by_person :=
      if r.person ≠ "" then dictAdd s.by_person r.person r.current_balance
      else s.by_person
    month_over_month_change :=
      s.month_over_month_change + (r.current_balance - r.previous_balance) }

/-- Model of `get_net_worth_summary`: fold the account loop, then fill in real
assets and the total. -/
def get_net_worth_summary (db : DB) : NetWorthSummary :=
  let s := db.investment_accounts.foldl nwStep ⟨0, 0, 0, 0, 0, [], [], 0⟩
  let s := { s with real_assets := (db.real_assets.map RealAsset.current_value).sum }
  { s with total_assets :=
      s.liquid_assets + s.semi_liquid_assets + s.non_liquid_assets + s.real_assets }

/-- Model of `update_investment_account`: read the current balance of the named
account (first match, 0 when absent), then overwrite previous/current
balances and the update date. -/
def update_investment_account (db : DB) (account_name : String) (new_balance : ℚ)
    (today : String) : DB :=
  let previous_balance :=
    match db.investment_accounts.find? (fun a => a.account_name == account_name) with
    | some a => a.current_balance
    | none => 0
  { db with investment_accounts := db.investment_accounts.map fun a =>
      if a.account_name = account_name then
        { a with
          previous_balance := previous_balance
          current_balance := new_balance
          last_updated := today }
      else a }

/-! ### Savings goals -/

/-- Model of `update_savings_goal`: the absolute-set path. -/
def update_savings_goal (db : DB) (goal_id : Nat) (current_amount : ℚ) : DB :=
  { db with savings_goals := db.savings_goals.map fun g =>
      if g.id = goal_id then { g with current_amount := current_amount } else g }

/-- Model of `update_savings_goal_contribution`: `current_amount = current_amount + ?`. -/
def update_savings_goal_contribution (db : DB) (goal_id : Nat) (amount : ℚ) : DB :=
  { db with savings_goals := db.savings_goals.map fun g =>
      if g.id = goal_id then { g with current_amount := g.current_amount + amount } else g }

/-! ### CSV import -/

/-- One parsed CSV record as `csv.DictReader` yields it. -/
abbrev CsvRow := List (String × String)

/-- Model of `row.get(key, default)`. -/
def rowGet (row : CsvRow) (key dflt : String) : String :=
  (dictFind row key).getD dflt

/-- The `Amount` cell handed to `float(...)`. -/
def rowAmount (row : CsvRow) : String :=
  rowGet row "Amount" "0"

/-- The dict returned by `import_csv_data` on the non-IO-failure path. -/
structure ImportResult where
  success : Bool
  imported : Nat
  errors : List String
  deriving DecidableEq, Repr

/-- The `f"Row {rowIndex}: {e}"` error string of `import_csv_data`. -/
def rowErrorEntry (rowIndex : Nat) (e : String) : String :=
  "Row " ++ Nat.repr rowIndex ++ ": " ++ e

/-- Loop body of `import_csv_data`. `floatParse` stands for Python's
`float` builtin: `.error` is the raised `ValueError` with its message, so a
failing row is recorded as `"Row {imported + 1}: {e}"` and skipped without
aborting; rows of an unrecognized `data_type` fall through to the bare
`imported += 1`. -/
def importStep (floatParse : String → Except String ℚ) (today data_type : String)
    (st : DB × Nat × List String) (row : CsvRow) : DB × Nat × List String :=
  let (db, imported, errors) := st
  if data_type = "expenses" then
    match floatParse (rowAmount row) with
    | .error e => (db, imported, errors ++ [rowErrorEntry (imported + 1) e])
    | .ok amount =>
        ((add_expense db (rowGet row "Date" today) (rowGet row "Category" "Other")
          (rowGet row "Sub Category" "Other") amount (rowGet row "Person" "Joint")
          (rowGet row "Description" "") (rowGet row "Account" "Checking")
          ((rowGet row "Cleared" "True").toLower == "true")).1,
          imported + 1, errors)
  else if data_type = "income" then
    match floatParse (rowAmount row) with
    | .error e => (db, imported, errors ++ [rowErrorEntry (imported + 1) e])
    | .ok amount =>
        ((add_income db (rowGet row "Date" today) (rowGet row "Source" "Other") amount
          (rowGet row "Person" "Joint") (rowGet row "Account" "Checking")
          (rowGet row "Description" "")
          ((rowGet row "IsTransfer" "False").toLower == "true")
          (rowGet row "FromAccount" "")).1,
          imported + 1, errors)
  else (db, imported + 1, errors)

/-- Model of `import_csv_data` on an already-read file: fold the row loop and report
success with the counter and error list. -/
def import_csv_data (floatParse : String → Except String ℚ) (today : String) (db : DB)
    (rows : List CsvRow) (data_type : String) : DB × ImportResult :=
  let st := rows.foldl (importStep floatParse today data_type) (db, 0, [])
  (st.1, ⟨true, st.2.1, st.2.2⟩)

/-! ### Operation sequences over income and expenses (for the month/year
denormalization invariant) -/

/-- The four date-carrying income/expense operations. -/
inductive Op where
  | addIncome (date source : String) (amount : ℚ) (person account description : String)
      (is_transfer : Bool) (from_account : String)
  | addExpense (date category subcategory : String) (amount : ℚ)
      (person description account : String) (cleared : Bool)
  | updIncome (id : Nat) (data : IncomeData)
  | updExpense (id : Nat) (data : ExpenseData)

/-- The date string an operation derives month/year from. -/
def Op.date : Op → String
  | .addIncome date _ _ _ _ _ _ _ => date
  | .addExpense date _ _ _ _ _ _ _ => date
  | .updIncome _ data => data.date
  | .updExpense _ data => data.date

/-- Run one operation against the database. -/
def applyOp (db : DB) : Op → DB
  | .addIncome date source amount person account description is_transfer from_account =>
      (add_income db date source amount person account description is_transfer
        from_account).1
  | .addExpense date category subcategory amount person description account cleared =>
      (add_expense db date category subcategory amount person description account
        cleared).1
  | .updIncome id data => update_income db id data
  | .updExpense id data => update_expense db id data

/-- Run a sequence of operations. -/
def applyOps (db : DB) (ops : List Op) : DB :=
  ops.foldl applyOp db

/-! ### Properties of the date-splitting helpers -/

/-- The ISO date string assembled from year, month and day character lists. -/
def dateString (y m d : List Char) : String :=
  String.mk (y ++ '-' :: (m ++ '-' :: d))

theorem pySplit_ne_nil (sep : Char) (l : List Char) : pySplit sep l ≠ [] := by
  cases l with
  | nil => simp [pySplit]
  | cons c cs =>
    simp only [pySplit]
    split
    · simp
    · split <;> simp

theorem pySplit_no_sep {sep : Char} {l : List Char} (h : sep ∉ l) :
    pySplit sep l = [l] := by
  induction l with
  | nil => rfl
  | cons c cs ih =>
    simp only [List.mem_cons, not_or] at h
    simp only [pySplit]
    rw [if_neg (fun hc => h.1 hc.symm), ih h.2]

theorem pySplit_append {sep : Char} {a : List Char} (rest : List Char) (h : sep ∉ a) :
    pySplit sep (a ++ sep :: rest) = a :: pySplit sep rest := by
  induction a with
  | nil => simp [pySplit]
  | cons c cs ih =>
    simp only [List.mem_cons, not_or] at h
    simp only [List.cons_append, pySplit, List.append_eq]
    rw [ih h.2, if_neg (fun hc => h.1 hc.symm)]

theorem pySplit_dateString {y m d : List Char}
    (hy : '-' ∉ y) (hm : '-' ∉ m) (hd : '-' ∉ d) :
    pySplit '-' (dateString y m d).toList = [y, m, d] := by
  have : (dateString y m d).toList = y ++ '-' :: (m ++ '-' :: d) := rfl
  rw [this, pySplit_append _ hy, pySplit_append _ hm, pySplit_no_sep hd]

/-- A list of characters that are all decimal digits. -/
def AllDigits (l : List Char) : Prop :=
  ∀ c ∈ l, c.isDigit

instance (l : List Char) : Decidable (AllDigits l) := by
  unfold AllDigits; infer_instance

theorem not_dash_mem_of_allDigits {l : List Char} (h : AllDigits l) : '-' ∉ l := by
  intro hmem
  have := h '-' hmem
  simp [Char.isDigit] at this

theorem dateMonth_dateString {y m d : List Char}
    (hy : AllDigits y) (hm : AllDigits m) (hd : AllDigits d) :
    dateMonth (dateString y m d) = String.mk m := by
  unfold dateMonth
  rw [pySplit_dateString (not_dash_mem_of_allDigits hy) (not_dash_mem_of_allDigits hm)
    (not_dash_mem_of_allDigits hd)]
  rfl

theorem dateYear_dateString {y m d : List Char}
    (hy : AllDigits y) (hm : AllDigits m) (hd : AllDigits d) :
    dateYear (dateString y m d) = Int.ofNat (digitsToNat y) := by
  unfold dateYear
  rw [pySplit_dateString (not_dash_mem_of_allDigits hy) (not_dash_mem_of_allDigits hm)
    (not_dash_mem_of_allDigits hd)]
  rfl

/-- C2: on a valid ISO date the stored month is the two-character `MM`
substring and the stored year the integer value of the `YYYY` prefix. -/
theorem add_stores_month_year (db : DB) (y m d : List Char)
    (hy : AllDigits y) (hm : AllDigits m) (hd : AllDigits d)
    (hylen : y.length = 4) (hmlen : m.length = 2) (hdlen : d.length = 2)
    (source : String) (amount : ℚ) (person account description : String)
    (is_transfer : Bool) (from_account : String)
    (category subcategory : String) (cleared : Bool) :
    (∃ r : IncomeRow,
      (add_income db (dateString y m d) source amount person account description
        is_transfer from_account).1.income =
          db.income ++ [r] ∧
      r.month = String.mk m ∧ r.year = Int.ofNat (digitsToNat y)) ∧
    (∃ r : ExpenseRow,
      (add_expense db (dateString y m d) category subcategory amount person
        description account cleared).1.expenses =
          db.expenses ++ [r] ∧
      r.month = String.mk m ∧ r.year = Int.ofNat (digitsToNat y)) := by
  constructor
  · refine ⟨_, rfl, ?_, ?_⟩
    · exact dateMonth_dateString hy hm hd
    · exact dateYear_dateString hy hm hd
  · refine ⟨_, rfl, ?_, ?_⟩
    · exact dateMonth_dateString hy hm hd
    · exact dateYear_dateString hy hm hd

/-- C2 witness: the date `2024-03-15` yields stored month `"03"` and year
`2024`. -/
theorem add_stores_month_year_witness :
    (∃ r : IncomeRow,
      (add_income DB.empty (dateString ['2','0','2','4'] ['0','3'] ['1','5'])
        "Salary" 100 "Jeff" "Checking" "" false "").1.income =
          DB.empty.income ++ [r] ∧
      r.month = String.mk ['0','3'] ∧ r.year = Int.ofNat (digitsToNat ['2','0','2','4'])) ∧
    (∃ r : ExpenseRow,
      (add_expense DB.empty (dateString ['2','0','2','4'] ['0','3'] ['1','5'])
        "Food" "Food (Groceries)" 100 "Jeff" "" "Checking" true).1.expenses =
          DB.empty.expenses ++ [r] ∧
      r.month = String.mk ['0','3'] ∧ r.year = Int.ofNat (digitsToNat ['2','0','2','4'])) :=
  add_stores_month_year DB.empty ['2','0','2','4'] ['0','3'] ['1','5']
    (by decide) (by decide) (by decide) (by decide) (by decide) (by decide)
    "Salary" 100 "Jeff" "Checking" "" false "" "Food" "Food (Groceries)" true

/-! ### C8: savings-goal contributions accumulate -/

/-- C8: a contribution adds to the stored amount, so successive
contributions compose additively and in any order; in particular 100 then
50 raise every targeted goal's amount by 150. -/
theorem contribution_accumulates (db : DB) (i i' : Nat) (a b : ℚ) :
    update_savings_goal_contribution (update_savings_goal_contribution db i a) i b
      = update_savings_goal_contribution db i (a + b) ∧
    update_savings_goal_contribution (update_savings_goal_contribution db i a) i' b
      = update_savings_goal_contribution (update_savings_goal_contribution db i' b) i a ∧
    ((update_savings_goal_contribution (update_savings_goal_contribution db i 100) i 50).savings_goals.map
        fun g => g.current_amount)
      = db.savings_goals.map fun g =>
          if g.id = i then g.current_amount + 150 else g.current_amount := by
  refine ⟨?_, ?_, ?_⟩
  · unfold update_savings_goal_contribution
    simp only [List.map_map]
    congr 1
    refine List.map_congr_left fun g _ => ?_
    by_cases h : g.id = i <;> simp [h, Function.comp, add_assoc]
  · unfold update_savings_goal_contribution
    simp only [List.map_map]
    congr 1
    refine List.map_congr_left fun g _ => ?_
    by_cases h : g.id = i <;> by_cases h' : g.id = i'
    · have hii : i = i' := h.symm.trans h'
      subst hii
      simp [h, Function.comp, add_right_comm]
    · subst h
      simp [h', Function.comp]
    · subst h'
      simp [h, Function.comp]
    · simp [h, h', Function.comp]
  · unfold update_savings_goal_contribution
    simp only [List.map_map]
    refine List.map_congr_left fun g _ => ?_
    by_cases h : g.id = i
    · simp [h, Function.comp]
      ring
    · simp [h, Function.comp]

/-! ### C9: unrecognized data_type imports count rows but change nothing -/

theorem importStep_other {floatParse : String → Except String ℚ} {today data_type : String}
    (h1 : data_type ≠ "expenses") (h2 : data_type ≠ "income")
    (db : DB) (k : Nat) (es : List String) (row : CsvRow) :
    importStep floatParse today data_type (db, k, es) row = (db, k + 1, es) := by
  simp [importStep, h1, h2]

theorem import_fold_other {floatParse : String → Except String ℚ} {today data_type : String}
    (h1 : data_type ≠ "expenses") (h2 : data_type ≠ "income")
    (rows : List CsvRow) :
    ∀ (db : DB) (k : Nat) (es : List String),
      rows.foldl (importStep floatParse today data_type) (db, k, es)
        = (db, k + rows.length, es) := by
  induction rows with
  | nil => intro db k es; simp
  | cons r rs ih =>
    intro db k es
    rw [List.foldl_cons, importStep_other h1 h2, ih]
    simp only [List.length_cons]
    rw [Nat.add_assoc, Nat.add_comm 1]

/-- C9: for a `data_type` other than `'expenses'` and `'income'`, the
CSV ingestion succeeds, counts every row as imported, reports no errors,
and leaves the database untouched. -/
theorem import_other_type (floatParse : String → Except String ℚ) (today : String)
    (db : DB) (rows : List CsvRow) (data_type : String)
    (h1 : data_type ≠ "expenses") (h2 : data_type ≠ "income") :
    import_csv_data floatParse today db rows data_type
      = (db, ⟨true, rows.length, []⟩) := by
  simp [import_csv_data, import_fold_other h1 h2]

/-- C9 witness: importing two rows with `data_type = "budget"` returns the
database unchanged with `imported = 2` and no errors. -/
theorem import_other_type_witness :
    import_csv_data (fun s => if s = "x" then Except.error "bad" else Except.ok 1)
        "2024-01-01" DB.empty [[("Amount", "5")], [("Amount", "x")]] "budget"
      = (DB.empty, ⟨true, 2, []⟩) :=
  import_other_type _ "2024-01-01" DB.empty _ "budget" (by decide) (by decide)

/-! ### C3: a single bad Amount in row 3 is recorded without aborting -/

theorem importStep_expenses_ok {floatParse : String → Except String ℚ} {today : String}
    {row : CsvRow} {q : ℚ} (hq : floatParse (rowAmount row) = Except.ok q)
    (db : DB) (k : Nat) (es : List String) :
    ∃ db', importStep floatParse today "expenses" (db, k, es) row = (db', k + 1, es) :=
  ⟨(add_expense db (rowGet row "Date" today) (rowGet row "Category" "Other")
      (rowGet row "Sub Category" "Other") q (rowGet row "Person" "Joint")
      (rowGet row "Description" "") (rowGet row "Account" "Checking")
      ((rowGet row "Cleared" "True").toLower == "true")).1,
    by simp [importStep, hq]⟩

theorem importStep_expenses_error {floatParse : String → Except String ℚ} {today : String}
    {row : CsvRow} {msg : String} (hq : floatParse (rowAmount row) = Except.error msg)
    (db : DB) (k : Nat) (es : List String) :
    importStep floatParse today "expenses" (db, k, es) row
      = (db, k, es ++ [rowErrorEntry (k + 1) msg]) := by
  simp [importStep, hq]

theorem import_fold_expenses_ok {floatParse : String → Except String ℚ} {today : String}
    (rows : List CsvRow)
    (hok : ∀ r ∈ rows, ∃ q, floatParse (rowAmount r) = Except.ok q) :
    ∀ (db : DB) (k : Nat) (es : List String),
      (rows.foldl (importStep floatParse today "expenses") (db, k, es)).2
        = (k + rows.length, es) := by
  induction rows with
  | nil => intro db k es; simp
  | cons r rs ih =>
    intro db k es
    obtain ⟨q, hq⟩ := hok r (List.mem_cons_self r rs)
    obtain ⟨db', hstep⟩ := importStep_expenses_ok hq db k es
    rw [List.foldl_cons, hstep, ih (fun r hr => hok r (List.mem_cons_of_mem _ hr))]
    simp only [List.length_cons]
    rw [Nat.add_assoc, Nat.add_comm 1]

/-- C3: when exactly the third row's Amount fails to parse, the expense
ingestion succeeds with `imported = N − 1` and exactly one error entry,
labelled row 3; the rows after the failure are still processed. -/
theorem import_row3_error (floatParse : String → Except String ℚ) (today : String)
    (db : DB) (r0 r1 r2 : CsvRow) (rest : List CsvRow) (msg : String)
    (herr : floatParse (rowAmount r2) = Except.error msg)
    (h0 : ∃ q, floatParse (rowAmount r0) = Except.ok q)
    (h1 : ∃ q, floatParse (rowAmount r1) = Except.ok q)
    (hrest : ∀ r ∈ rest, ∃ q, floatParse (rowAmount r) = Except.ok q) :
    (import_csv_data floatParse today db (r0 :: r1 :: r2 :: rest) "expenses").2
      = ⟨true, (r0 :: r1 :: r2 :: rest).length - 1, [rowErrorEntry 3 msg]⟩ := by
  obtain ⟨q0, hq0⟩ := h0
  obtain ⟨q1, hq1⟩ := h1
  obtain ⟨db0, hs0⟩ := importStep_expenses_ok hq0 db 0 []
  obtain ⟨db1, hs1⟩ := importStep_expenses_ok hq1 db0 (0 + 1) []
  have hfold :
      ((r0 :: r1 :: r2 :: rest).foldl (importStep floatParse today "expenses")
          (db, 0, [])).2
        = (2 + rest.length, [rowErrorEntry 3 msg]) := by
    rw [List.foldl_cons, hs0, List.foldl_cons, hs1, List.foldl_cons,
      importStep_expenses_error herr, import_fold_expenses_ok rest hrest]
    norm_num
  simp only [import_csv_data, hfold]
  simp [List.length_cons]
  omega

/-- C3 witness: five rows with a bad Amount only in row 3 import with
`imported = 4` and the single error entry labelled row 3. -/
theorem import_row3_error_witness :
    (import_csv_data
        (fun s => if s = "abc" then Except.error "could not convert string to float"
          else Except.ok 1)
        "2024-01-01" DB.empty
        ([("Amount", "10")] :: [("Amount", "20")] :: [("Amount", "abc")] ::
          [[("Amount", "30")], [("Amount", "40")]]) "expenses").2
      = ⟨true, 4, [rowErrorEntry 3 "could not convert string to float"]⟩ :=
  import_row3_error _ "2024-01-01" DB.empty _ _ _ _ "could not convert string to float"
    rfl ⟨1, rfl⟩ ⟨1, rfl⟩
    (by intro r hr; exact ⟨1, by fin_cases hr <;> rfl⟩)

/-! ### C5: the source period of copy_budget_from_previous_month -/

/-- The spec-side description of the copy: read the plan rows of an
explicitly given source period and upsert each into the target period. -/
def copyFromPeriod (db : DB) (target_month : String) (target_year : Int)
    (src_month : String) (src_year : Int) : DB :=
  (planRows db src_month src_year).foldl
    (fun d r => update_budget_plan d target_month target_year
      r.category r.subcategory r.planned_amount) db

/-- The spec-side "zero-padded" two-digit numeral. -/
def specPad2 (n : Nat) : String :=
  if n < 10 then "0" ++ Nat.repr n else Nat.repr n

/-- C5: copying into January reads December of the previous year; copying
into any other valid month M reads the zero-padded month M−1 of the same
year; each row read is upserted into the target period. -/
theorem copy_reads_previous_period (db : DB) (targetYear : Int) :
    copy_budget_from_previous_month db "01" targetYear
      = copyFromPeriod db "01" targetYear "12" (targetYear - 1) ∧
    ∀ M ∈ ["02", "03", "04", "05", "06", "07", "08", "09", "10", "11", "12"],
      copy_budget_from_previous_month db M targetYear
        = copyFromPeriod db M targetYear (specPad2 (pyIntStr M - 1)) targetYear := by
  constructor
  · rfl
  · intro M hM
    fin_cases hM <;> rfl

/-- C5 witness: copying into May 2025 reads April 2025. -/
theorem copy_reads_previous_period_witness :
    copy_budget_from_previous_month DB.empty "05" 2025
      = copyFromPeriod DB.empty "05" 2025 (specPad2 (pyIntStr "05" - 1)) 2025 :=
  (copy_reads_previous_period DB.empty 2025).2 "05" (by simp)

/-! ### C4: balance updates roll the previous balance forward -/

theorem find_middle {α : Type} (p : α → Bool) (l₁ l₂ : List α) (a : α)
    (h₁ : ∀ b ∈ l₁, p b = false) (ha : p a = true) :
    (l₁ ++ a :: l₂).find? p = some a := by
  induction l₁ with
  | nil => simp [List.find?, ha]
  | cons x xs ih =>
    simp only [List.cons_append, List.find?]
    rw [h₁ x (List.mem_cons_self x xs)]
    exact ih fun b hb => h₁ b (List.mem_cons_of_mem _ hb)

theorem nwStep_mom (s : NetWorthSummary) (r : InvestmentAccount) :
    (nwStep s r).month_over_month_change
      = s.month_over_month_change + (r.current_balance - r.previous_balance) := rfl

theorem foldl_nwStep_mom (l : List InvestmentAccount) :
    ∀ s : NetWorthSummary,
      (l.foldl nwStep s).month_over_month_change
        = s.month_over_month_change
          + ((l.map fun r => r.current_balance - r.previous_balance).sum) := by
  induction l with
  | nil => intro s; simp
  | cons r rs ih =>
    intro s
    rw [List.foldl_cons, ih, nwStep_mom]
    simp [add_assoc]

theorem net_worth_mom (db : DB) :
    (get_net_worth_summary db).month_over_month_change
      = ((db.investment_accounts.map
          fun r => r.current_balance - r.previous_balance).sum) := by
  show (db.investment_accounts.foldl nwStep ⟨0, 0, 0, 0, 0, [], [], 0⟩).month_over_month_change = _
  rw [foldl_nwStep_mom]
  simp

/-- C4: updating an account moves its current balance into
previous_balance and stores the new balance; when every other account has
current = previous, the month-over-month change of the net worth summary
is exactly new − old. -/
theorem update_account_rolls_balance (db : DB) (name today : String) (v : ℚ)
    (l₁ l₂ : List InvestmentAccount) (a : InvestmentAccount)
    (hsplit : db.investment_accounts = l₁ ++ a :: l₂)
    (hname : a.account_name = name)
    (hl₁ : ∀ b ∈ l₁, b.account_name ≠ name)
    (hl₂ : ∀ b ∈ l₂, b.account_name ≠ name) :
    (update_investment_account db name v today).investment_accounts
      = l₁ ++ { a with
          previous_balance := a.current_balance
          current_balance := v
          last_updated := today } :: l₂ ∧
    ((∀ b ∈ l₁ ++ l₂, b.current_balance = b.previous_balance) →
      (get_net_worth_summary
          (update_investment_account db name v today)).month_over_month_change
        = v - a.current_balance) := by
  have hfind : db.investment_accounts.find? (fun b => b.account_name == name) = some a := by
    rw [hsplit]
    exact find_middle _ _ _ _
      (fun b hb => by simpa using hl₁ b hb) (by simpa using hname)
  have hlist : (update_investment_account db name v today).investment_accounts
      = l₁ ++ { a with
          previous_balance := a.current_balance
          current_balance := v
          last_updated := today } :: l₂ := by
    unfold update_investment_account
    rw [hfind, hsplit]
    simp only [List.map_append, List.map_cons, if_pos hname]
    congr 1
    · rw [List.map_congr_left fun b hb => if_neg (hl₁ b hb)]
      simp
    · congr 1
      rw [List.map_congr_left fun b hb => if_neg (hl₂ b hb)]
      simp
  refine ⟨hlist, fun hothers => ?_⟩
  rw [net_worth_mom, hlist]
  have hz₁ : ∀ b ∈ l₁, b.current_balance - b.previous_balance = 0 := fun b hb => by
    rw [hothers b (List.mem_append_left _ hb)]; ring
  have hz₂ : ∀ b ∈ l₂, b.current_balance - b.previous_balance = 0 := fun b hb => by
    rw [hothers b (List.mem_append_right _ hb)]; ring
  rw [List.map_append, List.map_cons, List.sum_append, List.sum_cons]
  rw [List.sum_eq_zero fun x hx => by
    obtain ⟨b, hb, rfl⟩ := List.mem_map.1 hx; exact hz₁ b hb]
  rw [List.sum_eq_zero fun x hx => by
    obtain ⟨b, hb, rfl⟩ := List.mem_map.1 hx; exact hz₂ b hb]
  simp

/-- A liquid account whose balance is unchanged since the last period. -/
def sampleAccountA : InvestmentAccount :=
  ⟨"Emergency Fund", "Savings", "Liquid", 50, 50, "2025-01-01", "Joint", "Bank", ""⟩

/-- The account about to be updated. -/
def sampleAccountB : InvestmentAccount :=
  ⟨"Checking", "Cash", "Liquid", 120, 100, "2025-01-01", "Joint", "Bank", ""⟩

/-- A concrete database with the two sample accounts. -/
def sampleNWDB : DB :=
  { DB.empty with investment_accounts := [sampleAccountA, sampleAccountB] }

/-- C4 witness: updating `Checking` from 120 to 500 yields a
month-over-month change of 380. -/
theorem update_account_rolls_balance_witness :
    (get_net_worth_summary
        (update_investment_account sampleNWDB "Checking" 500 "2025-01-31")).month_over_month_change
      = 500 - sampleAccountB.current_balance :=
  (update_account_rolls_balance sampleNWDB "Checking" "2025-01-31" 500
    [sampleAccountA] [] sampleAccountB rfl rfl
    (by intro b hb; fin_cases hb; decide) (by intro b hb; exact absurd hb (by simp))).2
    (by intro b hb; fin_cases hb; decide)

/-! ### C7: transfer handling in the monthly summary -/

theorem insertDesc_perm {α : Type} (key : α → String) (x : α) (l : List α) :
    (insertDesc key x l).Perm (x :: l) := by
  induction l with
  | nil => exact List.Perm.refl _
  | cons y ys ih =>
    simp only [insertDesc]
    split
    · exact (ih.cons y).trans (List.Perm.swap x y ys)
    · exact List.Perm.refl _

theorem sortDesc_perm {α : Type} (key : α → String) (l : List α) :
    (sortDesc key l).Perm l := by
  induction l with
  | nil => exact List.Perm.refl _
  | cons x xs ih => exact (insertDesc_perm key x (sortDesc key xs)).trans (ih.cons x)

/-- C7: the summary's total_income sums exactly the non-transfer income of
the period, and transfer_in sums exactly the transfer income. -/
theorem monthly_summary_income_transfers (db : DB) (month : String) (year : Int) :
    (get_monthly_data db month year).summary.total_income
      = (((periodIncome db month year).filter fun r => !r.is_transfer).map
          IncomeRow.amount).sum ∧
    (get_monthly_data db month year).summary.transfer_in
      = (((periodIncome db month year).filter fun r => r.is_transfer).map
          IncomeRow.amount).sum := by
  have hperm : (sortDesc (fun r : IncomeRow => r.date)
      (periodIncome db month year)).Perm (periodIncome db month year) :=
    sortDesc_perm _ _
  constructor
  · exact ((hperm.filter _).map IncomeRow.amount).sum_eq
  · exact ((hperm.filter _).map IncomeRow.amount).sum_eq

/-! ### C6: month/year stay derived from date under adds and updates -/

/-- Character lists forming a valid `YYYY-MM-DD` date. -/
def ValidDateParts (y m d : List Char) : Prop :=
  AllDigits y ∧ AllDigits m ∧ AllDigits d ∧
    y.length = 4 ∧ m.length = 2 ∧ d.length = 2

/-- A string that is a valid ISO `YYYY-MM-DD` date. -/
def ValidDate (s : String) : Prop :=
  ∃ y m d, ValidDateParts y m d ∧ s = dateString y m d

/-- The denormalization invariant on an income row: its date is a valid
ISO date whose `MM` part is the stored month and whose `YYYY` part is the
stored year. -/
def IncomeRowInv (r : IncomeRow) : Prop :=
  ∃ y m d, ValidDateParts y m d ∧ r.date = dateString y m d ∧
    r.month = String.mk m ∧ r.year = Int.ofNat (digitsToNat y)

/-- The denormalization invariant on an expense row. -/
def ExpenseRowInv (r : ExpenseRow) : Prop :=
  ∃ y m d, ValidDateParts y m d ∧ r.date = dateString y m d ∧
    r.month = String.mk m ∧ r.year = Int.ofNat (digitsToNat y)

theorem derive_of_validDate {s : String} (h : ValidDate s) :
    ∃ y m d, ValidDateParts y m d ∧ s = dateString y m d ∧
      dateMonth s = String.mk m ∧ dateYear s = Int.ofNat (digitsToNat y) := by
  obtain ⟨y, m, d, hparts, rfl⟩ := h
  exact ⟨y, m, d, hparts, rfl,
    dateMonth_dateString hparts.1 hparts.2.1 hparts.2.2.1,
    dateYear_dateString hparts.1 hparts.2.1 hparts.2.2.1⟩

theorem applyOp_preserves (db : DB) (op : Op) (hop : ValidDate op.date)
    (hinc : ∀ r ∈ db.income, IncomeRowInv r)
    (hexp : ∀ r ∈ db.expenses, ExpenseRowInv r) :
    (∀ r ∈ (applyOp db op).income, IncomeRowInv r) ∧
    (∀ r ∈ (applyOp db op).expenses, ExpenseRowInv r) := by
  obtain ⟨y, m, d, hparts, hdate, hmonth, hyear⟩ := derive_of_validDate hop
  cases op with
  | addIncome date source amount person account description is_transfer from_account =>
    refine ⟨fun r hr => ?_, hexp⟩
    simp only [applyOp, add_income, List.mem_append, List.mem_singleton] at hr
    rcases hr with hr | rfl
    · exact hinc r hr
    · exact ⟨y, m, d, hparts, hdate, hmonth, hyear⟩
  | addExpense date category subcategory amount person description account cleared =>
    refine ⟨hinc, fun r hr => ?_⟩
    simp only [applyOp, add_expense, List.mem_append, List.mem_singleton] at hr
    rcases hr with hr | rfl
    · exact hexp r hr
    · exact ⟨y, m, d, hparts, hdate, hmonth, hyear⟩
  | updIncome id data =>
    refine ⟨fun r hr => ?_, hexp⟩
    simp only [applyOp, update_income, List.mem_map] at hr
    obtain ⟨r₀, hr₀, rfl⟩ := hr
    by_cases hid : r₀.id = id
    · rw [if_pos hid]
      exact ⟨y, m, d, hparts, hdate, hmonth, hyear⟩
    · rw [if_neg hid]
      exact hinc r₀ hr₀
  | updExpense id data =>
    refine ⟨hinc, fun r hr => ?_⟩
    simp only [applyOp, update_expense, List.mem_map] at hr
    obtain ⟨r₀, hr₀, rfl⟩ := hr
    by_cases hid : r₀.id = id
    · rw [if_pos hid]
      exact ⟨y, m, d, hparts, hdate, hmonth, hyear⟩
    · rw [if_neg hid]
      exact hexp r₀ hr₀

/-- C6: after any sequence of adds and full-record updates whose dates are
valid ISO dates, every stored income and expense row still has its month
equal to the `MM` part and its year equal to the `YYYY` part of its date. -/
theorem ops_preserve_month_year (db : DB) (ops : List Op)
    (hops : ∀ op ∈ ops, ValidDate op.date)
    (hinc : ∀ r ∈ db.income, IncomeRowInv r)
    (hexp : ∀ r ∈ db.expenses, ExpenseRowInv r) :
    (∀ r ∈ (applyOps db ops).income, IncomeRowInv r) ∧
    (∀ r ∈ (applyOps db ops).expenses, ExpenseRowInv r) := by
  induction ops generalizing db with
  | nil => exact ⟨hinc, hexp⟩
  | cons op rest ih =>
    have hstep := applyOp_preserves db op (hops op (List.mem_cons_self op rest)) hinc hexp
    exact ih (applyOp db op) (fun o ho => hops o (List.mem_cons_of_mem _ ho))
      hstep.1 hstep.2

/-- C6 witness: one add followed by an update keeps every row's month and
year derived from its date. -/
theorem ops_preserve_month_year_witness :
    (∀ r ∈ (applyOps DB.empty
        [Op.addIncome (dateString ['2','0','2','4'] ['0','3'] ['1','5']) "Salary" 100
          "Jeff" "Checking" "" false "",
         Op.updIncome 1 ⟨dateString ['2','0','2','4'] ['1','1'] ['0','2'], "Salary", 100,
           "Jeff", "Checking", "", false, ""⟩]).income, IncomeRowInv r) ∧
    (∀ r ∈ (applyOps DB.empty
        [Op.addIncome (dateString ['2','0','2','4'] ['0','3'] ['1','5']) "Salary" 100
          "Jeff" "Checking" "" false "",
         Op.updIncome 1 ⟨dateString ['2','0','2','4'] ['1','1'] ['0','2'], "Salary", 100,
           "Jeff", "Checking", "", false, ""⟩]).expenses, ExpenseRowInv r) :=
  ops_preserve_month_year DB.empty _
    (by
      intro op hop
      fin_cases hop
      · exact ⟨['2','0','2','4'], ['0','3'], ['1','5'],
          ⟨by decide, by decide, by decide, rfl, rfl, rfl⟩, rfl⟩
      · exact ⟨['2','0','2','4'], ['1','1'], ['0','2'],
          ⟨by decide, by decide, by decide, rfl, rfl, rfl⟩, rfl⟩)
    (by intro r hr; exact absurd hr (by simp [DB.empty]))
    (by intro r hr; exact absurd hr (by simp [DB.empty]))

/-! ### Dict lemmas for the budget-vs-actual proofs -/

theorem dictFind_dictSet_self {κ α : Type} [DecidableEq κ] (l : List (κ × α)) (k : κ)
    (v : α) : dictFind (dictSet l k v) k = some v := by
  induction l with
  | nil => simp [dictSet, dictFind]
  | cons p t ih =>
    obtain ⟨k', v'⟩ := p
    by_cases h : k = k'
    · subst h; simp [dictSet, dictFind]
    · simp [dictSet, dictFind, h, ih]

theorem dictFind_dictSet_ne {κ α : Type} [DecidableEq κ] (l : List (κ × α)) {k k₀ : κ}
    (v : α) (h : k ≠ k₀) : dictFind (dictSet l k₀ v) k = dictFind l k := by
  induction l with
  | nil => simp [dictSet, dictFind, h]
  | cons p t ih =>
    obtain ⟨k', v'⟩ := p
    by_cases h' : k₀ = k'
    · subst h'; simp [dictSet, dictFind, h, ih]
    · by_cases h'' : k = k'
      · subst h''; simp [dictSet, dictFind, h', Ne.symm h]
      · simp [dictSet, dictFind, h', h'', ih]

theorem dict2Get_dict2Set_self {α : Type} (l : List (String × List (String × α)))
    (c s : String) (v : α) : dict2Get (dict2Set l c s v) c s = some v := by
  unfold dict2Set
  cases hfind : dictFind l c with
  | none => simp [dict2Get, dictFind_dictSet_self, dictFind]
  | some inner => simp [dict2Get, dictFind_dictSet_self]

theorem dict2Get_dict2Set_ne {α : Type} (l : List (String × List (String × α)))
    {c s c₀ s₀ : String} (v : α) (hne : (c, s) ≠ (c₀, s₀)) :
    dict2Get (dict2Set l c₀ s₀ v) c s = dict2Get l c s := by
  by_cases hc : c = c₀
  · subst hc
    have hs : s ≠ s₀ := fun h => hne (by rw [h])
    unfold dict2Set
    cases hfind : dictFind l c with
    | none =>
      simp [dict2Get, dictFind_dictSet_self, dictFind, hs, hfind]
    | some inner =>
      simp [dict2Get, dictFind_dictSet_self, hfind, dictFind_dictSet_ne _ _ hs]
  · unfold dict2Set
    cases hfind : dictFind l c₀ with
    | none => simp [dict2Get, dictFind_dictSet_ne _ _ hc]
    | some inner => simp [dict2Get, dictFind_dictSet_ne _ _ hc]

theorem dict2Get_ensure {α : Type} (l : List (String × List (String × α)))
    {c₀ : String} (c s : String) (hnone : dictFind l c₀ = none) :
    dict2Get (dictSet l c₀ []) c s = dict2Get l c s := by
  by_cases hc : c = c₀
  · subst hc
    simp [dict2Get, dictFind_dictSet_self, hnone, dictFind]
  · simp [dict2Get, dictFind_dictSet_ne _ _ hc]

/-! ### The planned-amounts pass of get_budget_vs_actual -/

theorem bvaPlanStep_get_self (comp : Comparison) (r : BudgetPlan) :
    dict2Get (bvaPlanStep comp r) r.category r.subcategory
      = some ⟨r.planned_amount, 0, 0, 0⟩ := by
  unfold bvaPlanStep
  cases h : dictFind comp r.category <;> simp [h, dict2Get_dict2Set_self]

theorem bvaPlanStep_get_ne (comp : Comparison) (r : BudgetPlan) {c s : String}
    (hne : (c, s) ≠ (r.category, r.subcategory)) :
    dict2Get (bvaPlanStep comp r) c s = dict2Get comp c s := by
  unfold bvaPlanStep
  cases h : dictFind comp r.category with
  | none => simp [h, dict2Get_dict2Set_ne _ _ hne, dict2Get_ensure _ _ _ h]
  | some inner => simp [h, dict2Get_dict2Set_ne _ _ hne]

theorem foldl_planStep_get_notin (l : List BudgetPlan) (acc : Comparison) (c s : String)
    (h : ∀ r ∈ l, (c, s) ≠ (r.category, r.subcategory)) :
    dict2Get (l.foldl bvaPlanStep acc) c s = dict2Get acc c s := by
  induction l generalizing acc with
  | nil => rfl
  | cons r t ih =>
    rw [List.foldl_cons, ih _ fun r' hr' => h r' (List.mem_cons_of_mem _ hr'),
      bvaPlanStep_get_ne _ _ (h r (List.mem_cons_self r t))]

theorem foldl_planStep_shape (l : List BudgetPlan) (acc : Comparison)
    (hacc : ∀ c s e, dict2Get acc c s = some e →
      e.actual = 0 ∧ e.variance = 0 ∧ e.percentage = 0) :
    ∀ c s e, dict2Get (l.foldl bvaPlanStep acc) c s = some e →
      e.actual = 0 ∧ e.variance = 0 ∧ e.percentage = 0 := by
  induction l generalizing acc with
  | nil => exact hacc
  | cons r t ih =>
    rw [List.foldl_cons]
    refine ih _ fun c s e hget => ?_
    by_cases hk : (c, s) = (r.category, r.subcategory)
    · obtain ⟨rfl, rfl⟩ := Prod.mk.injEq .. ▸ hk
      rw [bvaPlanStep_get_self] at hget
      cases hget
      exact ⟨rfl, rfl, rfl⟩
    · rw [bvaPlanStep_get_ne _ _ hk] at hget
      exact hacc c s e hget

/-- Split a list around the last element satisfying `p`. -/
theorem exists_last_satisfying {α : Type} (p : α → Prop) (l : List α)
    (h : ∃ x ∈ l, p x) :
    ∃ l₁ x l₂, l = l₁ ++ x :: l₂ ∧ p x ∧ ∀ y ∈ l₂, ¬ p y := by
  induction l with
  | nil => obtain ⟨x, hx, _⟩ := h; exact absurd hx (List.not_mem_nil x)
  | cons a t ih =>
    by_cases ht : ∃ x ∈ t, p x
    · obtain ⟨l₁, x, l₂, heq, hpx, hl₂⟩ := ih ht
      exact ⟨a :: l₁, x, l₂, by rw [heq, List.cons_append], hpx, hl₂⟩
    · have hpa : p a := by
        obtain ⟨x, hx, hpx⟩ := h
        rcases List.mem_cons.1 hx with rfl | hx'
        · exact hpx
        · exact absurd ⟨x, hx', hpx⟩ ht
      exact ⟨[], a, t, rfl, hpa, fun y hy hpy => ht ⟨y, hy, hpy⟩⟩

theorem foldl_planStep_get_last (l : List BudgetPlan) (c s : String)
    (h : ∃ r ∈ l, r.category = c ∧ r.subcategory = s) :
    ∃ r ∈ l, r.category = c ∧ r.subcategory = s ∧
      dict2Get (l.foldl bvaPlanStep ([] : Comparison)) c s
        = some ⟨r.planned_amount, 0, 0, 0⟩ := by
  obtain ⟨l₁, x, l₂, rfl, ⟨hc, hs⟩, hl₂⟩ :=
    exists_last_satisfying (fun r => r.category = c ∧ r.subcategory = s) l h
  refine ⟨x, by simp, hc, hs, ?_⟩
  rw [List.foldl_append, List.foldl_cons,
    foldl_planStep_get_notin _ _ _ _ ]
  · rw [← hc, ← hs, bvaPlanStep_get_self]
  · intro r hr
    intro hpair
    obtain ⟨h1, h2⟩ := Prod.mk.injEq .. ▸ hpair
    exact hl₂ r hr ⟨h1.symm, h2.symm⟩

/-! ### The actual-sums pass of get_budget_vs_actual -/

theorem bvaActualStep_get_ne (comp : Comparison) (k : String × String) (a : ℚ)
    {c s : String} (hne : (c, s) ≠ k) :
    dict2Get (bvaActualStep comp k a) c s = dict2Get comp c s := by
  unfold bvaActualStep
  cases hfind : dictFind comp k.1 with
  | none =>
    cases hget : dict2Get (dictSet comp k.1 []) k.1 k.2 <;>
      simp [hfind, hget, dict2Get_dict2Set_ne _ _ hne, dict2Get_ensure _ _ _ hfind]
  | some inner =>
    cases hget : dict2Get comp k.1 k.2 <;>
      simp [hfind, hget, dict2Get_dict2Set_ne _ _ hne]

theorem bvaActualStep_get_self (comp : Comparison) (k : String × String) (a : ℚ) :
    dict2Get (bvaActualStep comp k a) k.1 k.2
      = some (match dict2Get comp k.1 k.2 with
          | none => ⟨0, a, -a, 0⟩
          | some e =>
              ⟨e.planned, a, e.planned - a,
                if 0 < e.planned then a / e.planned * 100 else e.percentage⟩) := by
  unfold bvaActualStep
  cases hfind : dictFind comp k.1 with
  | none =>
    have hget0 : dict2Get comp k.1 k.2 = none := by simp [dict2Get, hfind]
    have hget1 : dict2Get (dictSet comp k.1 []) k.1 k.2 = none := by
      rw [dict2Get_ensure _ _ _ hfind, hget0]
    simp [hfind, hget0, hget1, dict2Get_dict2Set_self]
  | some inner =>
    cases hget : dict2Get comp k.1 k.2 <;>
      simp [hfind, hget, dict2Get_dict2Set_self]

/-- One fold step of the actuals pass, abbreviated. -/
def bvaActualFold (comp : Comparison) (l : List ((String × String) × ℚ)) : Comparison :=
  l.foldl (fun c ka => bvaActualStep c ka.1 ka.2) comp

theorem bvaActualFold_get_notin (l : List ((String × String) × ℚ)) (comp : Comparison)
    (c s : String) (h : ∀ ka ∈ l, (c, s) ≠ ka.1) :
    dict2Get (bvaActualFold comp l) c s = dict2Get comp c s := by
  induction l generalizing comp with
  | nil => rfl
  | cons ka t ih =>
    show dict2Get (bvaActualFold (bvaActualStep comp ka.1 ka.2) t) c s = _
    rw [ih _ fun ka' hka' => h ka' (List.mem_cons_of_mem _ hka'),
      bvaActualStep_get_ne _ _ _ (h ka (List.mem_cons_self ka t))]

theorem bvaActualFold_spec (l : List ((String × String) × ℚ)) (comp : Comparison)
    (hnodup : (l.map Prod.fst).Nodup)
    (hshape : ∀ ka ∈ l, ∀ e, dict2Get comp ka.1.1 ka.1.2 = some e → e.percentage = 0) :
    ∀ ka ∈ l, ∃ e, dict2Get (bvaActualFold comp l) ka.1.1 ka.1.2 = some e ∧
      e.actual = ka.2 ∧ e.variance = e.planned - ka.2 ∧
      e.percentage = (if 0 < e.planned then ka.2 / e.planned * 100 else 0) ∧
      (dict2Get comp ka.1.1 ka.1.2 = none → e.planned = 0) := by
  induction l generalizing comp with
  | nil => intro ka hka; exact absurd hka (List.not_mem_nil ka)
  | cons hd t ih =>
    obtain ⟨hhd, hnodup'⟩ := List.nodup_cons.1 hnodup
    have hne_head : ∀ ka ∈ t, (hd.1.1, hd.1.2) ≠ ka.1 := by
      intro ka hka heq
      exact hhd (by
        rw [show hd.1 = ka.1 from by rw [← heq]]
        exact List.mem_map_of_mem Prod.fst hka)
    intro ka hka
    rcases List.mem_cons.1 hka with rfl | hka'
    · -- the head key: settled by this step, untouched afterwards
      cases hget : dict2Get comp ka.1.1 ka.1.2 with
      | none =>
        refine ⟨⟨0, ka.2, -ka.2, 0⟩, ?_, rfl, by ring, ?_, fun _ => rfl⟩
        · show dict2Get (bvaActualFold (bvaActualStep comp ka.1 ka.2) t) ka.1.1 ka.1.2 = _
          rw [bvaActualFold_get_notin _ _ _ _ hne_head, bvaActualStep_get_self, hget]
        · rw [if_neg (by norm_num)]
      | some e₀ =>
        have hp := hshape ka (List.mem_cons_self ka t) e₀ hget
        refine ⟨⟨e₀.planned, ka.2, e₀.planned - ka.2,
            if 0 < e₀.planned then ka.2 / e₀.planned * 100 else e₀.percentage⟩,
          ?_, rfl, rfl, ?_, fun hnone => Option.noConfusion hnone⟩
        · show dict2Get (bvaActualFold (bvaActualStep comp ka.1 ka.2) t) ka.1.1 ka.1.2 = _
          rw [bvaActualFold_get_notin _ _ _ _ hne_head, bvaActualStep_get_self, hget]
        · by_cases hpos : 0 < e₀.planned
          · rw [if_pos hpos, if_pos hpos]
          · rw [if_neg hpos, if_neg hpos, hp]
    · -- a later key: unchanged by this step
      have hne_head' : ∀ ka' ∈ t, ((ka'.1.1, ka'.1.2) : String × String) ≠ hd.1 :=
        fun ka' hka' heq => hne_head ka' hka' heq.symm
      have hchanged : ∀ ka' ∈ t,
          dict2Get (bvaActualStep comp hd.1 hd.2) ka'.1.1 ka'.1.2
            = dict2Get comp ka'.1.1 ka'.1.2 := fun ka' hka' =>
        bvaActualStep_get_ne _ _ _ (hne_head' ka' hka')
      obtain ⟨e, hgete, hact, hvar, hperc, hplan⟩ :=
        ih (bvaActualStep comp hd.1 hd.2) hnodup'
          (fun ka' hka' e he => hshape ka' (List.mem_cons_of_mem _ hka') e
            ((hchanged ka' hka') ▸ he))
          ka hka'
      exact ⟨e, hgete, hact, hvar, hperc,
        fun hnone => hplan (by rw [hchanged ka hka', hnone])⟩

/-! ### Membership facts about the grouped totals -/

theorem grouped_map_fst (rows : List ExpenseRow) :
    (groupedExpenseTotals rows).map Prod.fst = expenseKeys rows := by
  simp [groupedExpenseTotals, List.map_map, Function.comp_def]

theorem grouped_keys_nodup (rows : List ExpenseRow) :
    ((groupedExpenseTotals rows).map Prod.fst).Nodup := by
  rw [grouped_map_fst]
  exact List.nodup_dedup _

theorem mem_grouped_iff (rows : List ExpenseRow) (k : String × String) :
    (∃ a, (k, a) ∈ groupedExpenseTotals rows)
      ↔ ∃ r ∈ rows, (r.category, r.subcategory) = k := by
  constructor
  · rintro ⟨a, ha⟩
    obtain ⟨k', hk', heq⟩ := List.mem_map.1 ha
    have h1 : k' = k := congrArg Prod.fst heq
    subst h1
    obtain ⟨r, hr, hrk⟩ := List.mem_map.1 (List.mem_dedup.1 hk')
    exact ⟨r, hr, hrk⟩
  · rintro ⟨r, hr, hk⟩
    have hkmem : k ∈ expenseKeys rows :=
      List.mem_dedup.2 (hk ▸ List.mem_map_of_mem (fun r => (r.category, r.subcategory)) hr)
    exact ⟨_, List.mem_map_of_mem _ hkmem⟩

theorem mem_grouped_sum (rows : List ExpenseRow) (k : String × String) (a : ℚ)
    (h : (k, a) ∈ groupedExpenseTotals rows) :
    a = ((rows.filter fun r => (r.category, r.subcategory) == k).map
      ExpenseRow.amount).sum := by
  obtain ⟨k', hk', heq⟩ := List.mem_map.1 h
  have h1 : k' = k := congrArg Prod.fst heq
  subst h1
  exact (congrArg Prod.snd heq).symm

/-! ### C1 and C10: the budget-vs-actual comparison fields -/

/-- C1 (amended): for every (category, subcategory) with actual expense
rows in the period, the comparison entry's actual is the summed expenses,
variance = planned − actual, and percentage follows the planned > 0 rule;
pairs with actuals but no plan get planned = 0 (hence variance = −actual);
and a pair has an actual-sum row exactly when it has an expense row. -/
theorem budget_vs_actual_fields (db : DB) (month : String) (year : Int) :
    (∀ ka ∈ groupedExpenseTotals (periodExpenses db month year),
      ∃ e, dict2Get (get_budget_vs_actual db month year) ka.1.1 ka.1.2 = some e ∧
        e.actual = ka.2 ∧
        e.actual = (((periodExpenses db month year).filter
          fun r => (r.category, r.subcategory) == ka.1).map ExpenseRow.amount).sum ∧
        e.variance = e.planned - e.actual ∧
        e.percentage = (if 0 < e.planned then e.actual / e.planned * 100 else 0) ∧
        ((∀ p ∈ planRows db month year,
            ((p.category, p.subcategory) : String × String) ≠ ka.1) → e.planned = 0)) ∧
    (∀ k : String × String,
      (∃ a, (k, a) ∈ groupedExpenseTotals (periodExpenses db month year))
        ↔ ∃ r ∈ periodExpenses db month year, (r.category, r.subcategory) = k) := by
  refine ⟨?_, mem_grouped_iff _⟩
  intro ka hka
  obtain ⟨e, hget, hact, hvar, hperc, hplan⟩ :=
    bvaActualFold_spec (groupedExpenseTotals (periodExpenses db month year))
      ((planRows db month year).foldl bvaPlanStep [])
      (grouped_keys_nodup _)
      (fun ka' _ e he =>
        (foldl_planStep_shape _ []
          (fun c s e' h => by simp [dict2Get, dictFind] at h) _ _ e he).2.2)
      ka hka
  refine ⟨e, hget, hact, hact.trans (mem_grouped_sum _ _ _ hka), ?_, ?_, ?_⟩
  · rw [hact]; exact hvar
  · rw [hact]; exact hperc
  · intro hnoplan
    apply hplan
    rw [foldl_planStep_get_notin _ _ _ _ fun p hp heq => hnoplan p hp heq.symm]
    rfl

/-- A database holding a single budget plan and no expenses. -/
def dbPlanOnly : DB :=
  { DB.empty with budget_plans := [⟨"01", 2024, "Housing", "HOA", 500⟩] }

/-- C1 counterexample: with a plan of 500 and no expense rows for the
pair, the returned entry has variance 0 although planned − actual = 500,
so not every entry satisfies variance = planned − actual. -/
theorem budget_vs_actual_counterexample :
    dict2Get (get_budget_vs_actual dbPlanOnly "01" 2024) "Housing" "HOA"
      = some ⟨500, 0, 0, 0⟩ ∧ ((0 : ℚ) ≠ 500 - 0) := by
  constructor
  · rfl
  · norm_num

/-- A database with one plan row and one larger matching expense. -/
def dbBVA : DB :=
  { DB.empty with
    budget_plans := [⟨"01", 2024, "Food", "Food (Groceries)", 500⟩]
    expenses := [⟨1, "2024-01-05", "Food", "Food (Groceries)", 600, "Jeff", "",
      "Checking", true, "01", 2024⟩] }

/-- C1 witness: a 500 plan against 600 of actual expenses yields an entry
with actual 600, variance = planned − actual, and the percentage rule. -/
theorem budget_vs_actual_fields_witness :
    ∃ e, dict2Get (get_budget_vs_actual dbBVA "01" 2024) "Food" "Food (Groceries)"
        = some e ∧
      e.actual = 600 ∧
      e.actual = (((periodExpenses dbBVA "01" 2024).filter
        fun r => (r.category, r.subcategory) == (("Food", "Food (Groceries)") :
          String × String)).map ExpenseRow.amount).sum ∧
      e.variance = e.planned - e.actual ∧
      e.percentage = (if 0 < e.planned then e.actual / e.planned * 100 else 0) ∧
      ((∀ p ∈ planRows dbBVA "01" 2024,
          ((p.category, p.subcategory) : String × String)
            ≠ (("Food", "Food (Groceries)") : String × String)) → e.planned = 0) :=
  (budget_vs_actual_fields dbBVA "01" 2024).1 (("Food", "Food (Groceries)"), 600)
    (by simp [groupedExpenseTotals, expenseKeys, periodExpenses, dbBVA, DB.empty])

/-- C10: a (category, subcategory) that has a (unique) plan row but no
expense rows in the period keeps the entry {planned, 0, 0, 0}: its
variance stays 0 rather than becoming the planned amount. -/
theorem budget_vs_actual_plan_no_actual (db : DB) (month : String) (year : Int)
    (pr : BudgetPlan) (hpr : pr ∈ planRows db month year)
    (huniq : ∀ q ∈ planRows db month year,
      q.category = pr.category → q.subcategory = pr.subcategory → q = pr)
    (hnoexp : ∀ r ∈ periodExpenses db month year,
      ((r.category, r.subcategory) : String × String) ≠ (pr.category, pr.subcategory)) :
    dict2Get (get_budget_vs_actual db month year) pr.category pr.subcategory
      = some ⟨pr.planned_amount, 0, 0, 0⟩ := by
  have hpass2 : dict2Get (get_budget_vs_actual db month year) pr.category pr.subcategory
      = dict2Get ((planRows db month year).foldl bvaPlanStep ([] : Comparison))
          pr.category pr.subcategory := by
    show dict2Get (bvaActualFold _ _) _ _ = _
    apply bvaActualFold_get_notin
    intro ka hka heq
    obtain ⟨r, hr, hrk⟩ := (mem_grouped_iff (periodExpenses db month year) ka.1).1 ⟨ka.2, hka⟩
    exact hnoexp r hr (hrk.trans heq.symm)
  rw [hpass2]
  obtain ⟨x, hx, hxc, hxs, hxget⟩ := foldl_planStep_get_last (planRows db month year)
    pr.category pr.subcategory ⟨pr, hpr, rfl, rfl⟩
  rw [hxget, huniq x hx hxc hxs]

/-- C10 witness: in the single-plan, no-expenses database the `Housing`/
`HOA` entry is exactly {500, 0, 0, 0}. -/
theorem budget_vs_actual_plan_no_actual_witness :
    dict2Get (get_budget_vs_actual dbPlanOnly "01" 2024) "Housing" "HOA"
      = some ⟨(500 : ℚ), 0, 0, 0⟩ :=
  budget_vs_actual_plan_no_actual dbPlanOnly "01" 2024
    ⟨"01", 2024, "Housing", "HOA", 500⟩ (by decide) (by decide) (by decide)

end Budget
